import Mathlib

/-!
Shallow embedding of the SAAT orchestration core (checklist / approval /
stepwise-execution workflow, pipeline broker, and the architecture-
characteristics analysis loop), translated from `saat/models.py`,
`saat/agents/base.py`, `saat/broker.py` and `saat/agents/archchar.py`.

Python mutation is rendered as explicit state passing; a callback that can
raise is rendered as a function into `Except String _` whose error carries
`str(e)`; external events (the interactive approval prompt, the LLM call)
are rendered as explicit parameters.  Calls made to the approval gate and
the per-item execution callback are recorded in an explicit event trace so
that "is invoked", "never prompts" and "exactly once" are statable.
-/

namespace SAAT

/-- Model of `ChecklistItem` from `saat/models.py`: id, description, optional
estimated duration, dependency ids, `completed` flag (default `False`) and
optional free-text `result`. -/
structure ChecklistItem where
  id : String
  description : String
  estimated_duration : Option String := none
  dependencies : List String := []
  completed : Bool := false
  result : Option String := none
  deriving DecidableEq, Repr

/-- Model of `AgentChecklist` from `saat/models.py` (the `created_at`/`approved_at`
timestamps, pure wall-clock metadata never read by the core, are omitted). -/
structure AgentChecklist where
  agent_name : String
  task_description : String
  items : List ChecklistItem
  estimated_total_duration : Option String := none
  requires_approval : Bool := true
  approved : Bool := false
  approved_by : Option String := none
  deriving DecidableEq, Repr

/-- Model of `ApprovalResponse` from `saat/models.py` (timestamp and the unused
`modified_checklist` field omitted). -/
structure ApprovalResponse where
  approved : Bool
  feedback : Option String := none
  deriving DecidableEq, Repr

/-- Outcome of the `input("Proceed? [y/N]: ")` call in
`BaseAgentWithChecklist.request_approval`: either the human entered a line
of text, or the prompt was aborted (`KeyboardInterrupt` / `EOFError`). -/
inductive PromptOutcome where
  | entered (text : String)
  | interrupted
  deriving DecidableEq, Repr

/-- Observable calls the executor makes: one `approvalRequested` per call of
`request_approval`, one `prompted` per interactive `input()` call, one
`invoked item` per call of the per-item execution callback
`execute_checklist_item`. -/
inductive Event where
  | approvalRequested
  | prompted
  | invoked (item : ChecklistItem)
  deriving DecidableEq, Repr

/-- Python `str.lower()` modelled over the character sequence: lowercase
every character. -/
def pyLower (s : String) : String := String.mk (s.data.map Char.toLower)

/-- Python `str.strip()` modelled over the character sequence: drop leading
and trailing whitespace. -/
def pyStrip (s : String) : String :=
  String.mk (((s.data.dropWhile Char.isWhitespace).reverse.dropWhile
    Char.isWhitespace).reverse)

/-- The affirmative token set of `request_approval`:
`response in ['y', 'yes']`. -/
def affirmativeTokens : List String := ["y", "yes"]

/-- Model of `BaseAgentWithChecklist.request_approval` (`saat/agents/base.py`
lines 83-127).  Returns the `ApprovalResponse`, the (possibly mutated)
checklist, and the list of prompt events.  `auto_approve=True` writes
`approved`/`approved_by` on the checklist and returns the fixed automation
feedback without prompting; otherwise the entered line is stripped,
lowercased and compared against the affirmative token set, and an
interrupt yields a non-approval that writes nothing to the checklist. -/
def request_approval (checklist : AgentChecklist) (auto_approve : Bool)
    (prompt : PromptOutcome) : ApprovalResponse × AgentChecklist × List Event :=
  if auto_approve then
    (⟨true, some "Auto-approved in automation mode"⟩,
     { checklist with approved := true, approved_by := some "auto-approved" },
     [])
  else
    match prompt with
    | .entered text =>
        let response := pyLower (pyStrip text)
        let approved := affirmativeTokens.contains response
        let checklist1 :=
          if approved then
            { checklist with approved := approved, approved_by := some "user" }
          else
            { checklist with approved := approved }
        (⟨approved, some (if approved then "User approval" else "User cancelled")⟩,
         checklist1, [.prompted])
    | .interrupted =>
        (⟨false, some "Interrupted by user"⟩, checklist, [.prompted])

/-- One iteration of the executor's item loop (`saat/agents/base.py`
lines 186-201): on success the item is marked `completed` and the returned
string stored as `result` and appended to the results list; if the callback
raises, `result` is set to `"Error: <message>"`, `None` is appended to the
results list, and `completed` is left untouched. -/
def runItem (cb : ChecklistItem → Except String String) (item : ChecklistItem) :
    ChecklistItem × Option String :=
  match cb item with
  | .ok r => ({ item with completed := true, result := some r }, some r)
  | .error e => ({ item with result := some ("Error: " ++ e) }, none)

/-- The executor's `for item in checklist.items` loop: updated items,
ordered results list, and the trace of callback invocations. -/
def runItems (cb : ChecklistItem → Except String String) :
    List ChecklistItem → List ChecklistItem × List (Option String) × List Event
  | [] => ([], [], [])
  | item :: rest =>
      let (item1, r) := runItem cb item
      let (rest1, rs, ev) := runItems cb rest
      (item1 :: rest1, r :: rs, .invoked item :: ev)

/-- The dictionary returned by `execute_with_checklist`: `results` is
present only on the executed path, `feedback` only on the cancelled path. -/
structure ExecOutcome where
  success : Bool
  cancelled : Bool
  checklist : AgentChecklist
  results : Option (List (Option String)) := none
  feedback : Option String := none
  deriving DecidableEq, Repr

/-- Model of `BaseAgentWithChecklist.execute_with_checklist` (`saat/agents/base.py`
lines 148-210), from the point where the checklist exists (checklist
creation is the overridable `create_checklist`, so the built checklist is a
parameter; `display_checklist` is print-only).  Requests approval once; if
not approved returns `{success: False, cancelled: True, checklist,
feedback}` with no item executed; otherwise runs every item in list order
and returns `{success: True, cancelled: False, checklist, results}`. -/
def execute_with_checklist (cb : ChecklistItem → Except String String)
    (checklist : AgentChecklist) (auto_approve : Bool) (prompt : PromptOutcome) :
    ExecOutcome × List Event :=
  let (approval, checklist1, approvalEvents) :=
    request_approval checklist auto_approve prompt
  if approval.approved = false then
    (⟨false, true, checklist1, none, approval.feedback⟩,
     Event.approvalRequested :: approvalEvents)
  else
    let (items1, results, execEvents) := runItems cb checklist1.items
    (⟨true, false, { checklist1 with items := items1 }, some results, none⟩,
     Event.approvalRequested :: (approvalEvents ++ execEvents))

/-- The items on which the execution callback was invoked, in invocation
order, read off an event trace. -/
def invokedItems (ev : List Event) : List ChecklistItem :=
  ev.filterMap fun e =>
    match e with
    | .invoked item => some item
    | _ => none

/-- Number of approval requests recorded in an event trace. -/
def countApprovalRequests (ev : List Event) : Nat :=
  (ev.filter fun e =>
    match e with
    | .approvalRequested => true
    | _ => false).length

/-- Number of interactive prompts recorded in an event trace. -/
def countPrompts (ev : List Event) : Nat :=
  (ev.filter fun e =>
    match e with
    | .prompted => true
    | _ => false).length

/-- Model of `PipelineStep` from `saat/models.py` (the declared-but-unenforced
`timeout` field omitted). -/
structure PipelineStep where
  name : String
  agent : String
  task : String
  depends_on : List String := []
  required : Bool := true
  deriving DecidableEq, Repr

/-- Model of `Pipeline` from `saat/models.py` (version string omitted). -/
structure Pipeline where
  name : String
  description : String
  steps : List PipelineStep
  deriving DecidableEq, Repr

/-- The per-step record the broker stores under `results[step.name]`:
`{"success": ..., "data": ..., "error": ...}`.  `α` is the opaque payload a
step's agent returns. -/
structure StepResult (α : Type) where
  success : Bool
  data : Option α
  error : Option String
  deriving DecidableEq, Repr

/-- Python `dep in results` on the insertion-ordered results dict, modelled
as an association list. -/
def containsKey {β : Type} (results : List (String × β)) (k : String) : Bool :=
  results.any fun r => r.1 == k

/-- Python `results[step.name] = v` on the insertion-ordered dict:
overwrite in place if the key exists, else append. -/
def setKey {β : Type} : List (String × β) → String → β → List (String × β)
  | [], k, v => [(k, v)]
  | (k1, v1) :: rest, k, v =>
      if k1 == k then (k, v) :: rest else (k1, v1) :: setKey rest k v

/-- The `for step in pipeline.steps` loop of
`ContextBroker.execute_pipeline` (`saat/broker.py` lines 44-64).  `exec`
abstracts `_execute_step` (an external LLM-backed agent call receiving the
step and the previous results; `Except.error` models an exception carrying
`str(e)`).  Returns the results dict (or the `ValueError` raised for a
required step with missing dependencies, which propagates), paired with
the trace of step names actually passed to `exec`.  A step with a
dependency name absent from `results` is skipped when optional; an
executed step that fails is recorded as `{success: False, data: None,
error: msg}` and, when required, `break` ends the loop with the partial
results. -/
def runSteps {α : Type}
    (exec : PipelineStep → List (String × StepResult α) → Except String α) :
    List PipelineStep → List (String × StepResult α) →
    Except String (List (String × StepResult α)) × List String
  | [], results => (.ok results, [])
  | step :: rest, results =>
      let missing_deps := step.depends_on.filter fun dep => !containsKey results dep
      if missing_deps ≠ [] then
        if step.required then
          (.error ("Step " ++ step.name ++ " missing required dependencies"), [])
        else
          runSteps exec rest results
      else
        match exec step results with
        | .ok data =>
            let (out, tr) :=
              runSteps exec rest (setKey results step.name ⟨true, some data, none⟩)
            (out, step.name :: tr)
        | .error e =>
            let results1 := setKey results step.name ⟨false, none, some e⟩
            if step.required then
              (.ok results1, [step.name])
            else
              let (out, tr) := runSteps exec rest results1
              (out, step.name :: tr)

/-- The dict returned by `execute_pipeline`: pipeline name, per-step
results, wall-clock duration, and aggregate success
`all(r.get("success", False) for r in results.values())`. -/
structure PipelineOutcome (α : Type) where
  pipeline : String
  results : List (String × StepResult α)
  duration : Int
  success : Bool
  deriving DecidableEq, Repr

/-- Model of `ContextBroker.execute_pipeline` (`saat/broker.py` lines 26-74).  The
two `datetime.now()` readings are the `start_time`/`end_time` parameters;
`duration` is their difference.  The `ValueError` raised inside the loop
for a required step with missing dependencies is not caught, so it
propagates as `Except.error` and no outcome dict is returned. -/
def execute_pipeline {α : Type}
    (exec : PipelineStep → List (String × StepResult α) → Except String α)
    (pipeline : Pipeline) (start_time end_time : Int) :
    Except String (PipelineOutcome α) × List String :=
  match runSteps exec pipeline.steps [] with
  | (.error e, tr) => (.error e, tr)
  | (.ok results, tr) =>
      (.ok ⟨pipeline.name, results, end_time - start_time,
            results.all fun r => r.2.success⟩, tr)

/-- Model of `ArchCharacteristic` from `saat/models_archchar.py`. -/
structure ArchCharacteristic where
  id : String
  name : String
  description : String
  selected : Bool := false
  isTop : Bool := false
  rating : String := "medium"
  notes : String := ""
  deriving DecidableEq, Repr

/-- Model of `selected_chars = [c for c in archchar_input.characteristics
if c.selected]` in `ArchCharAnalysisAgent.analyze`. -/
def selectedChars (characteristics : List ArchCharacteristic) :
    List ArchCharacteristic :=
  characteristics.filter fun c => c.selected

/-- The `tool_map` dict of `ArchCharAnalysisAgent.analyze`: characteristic
name to analysis prompt. -/
def toolMap : List (String × String) :=
  [("Availability", "analyze the architecture for Availability"),
   ("Scalability", "analyze the architecture for Scalability"),
   ("Performance", "analyze the architecture for Performance"),
   ("Security", "analyze the architecture for Security"),
   ("Reliability", "analyze the architecture for Reliability"),
   ("Fault Tolerance", "analyze the architecture for Fault Tolerance"),
   ("Recoverability", "analyze the architecture for Recoverability"),
   ("Maintainability", "analyze the architecture for Maintainability"),
   ("Testability", "analyze the architecture for Testability"),
   ("Deployability", "analyze the architecture for Deployability"),
   ("Configurability", "analyze the architecture for Configurability"),
   ("Extensibility", "analyze the architecture for Extensibility"),
   ("Interoperability", "analyze the architecture for Interoperability"),
   ("Usability", "analyze the architecture for Usability")]

/-- Python `char.name in tool_map` (dict-key membership). -/
def supportedChar (c : ArchCharacteristic) : Bool :=
  toolMap.any fun kv => kv.1 == c.name

/-- The `for char in selected_chars` loop of `ArchCharAnalysisAgent.analyze`
(`saat/agents/archchar.py` lines 2406-2455).  `runOne` abstracts the body
of the `try` block — the external LLM call `self.agent.run(tool_map[...])`
plus result extraction, gap/recommendation conversion and scoring — whose
value is the `CharacteristicAnalysis` appended to `analyses` (opaque here,
type `α`) and whose `Except.error` models any exception raised in that
body.  A characteristic whose name is not a `tool_map` key is skipped
without invoking `runOne`; a failed characteristic is logged and skipped
(`continue`), the loop moving on to the remaining characteristics.
Returns the accumulated analyses and the trace of characteristic names on
which `runOne` was invoked. -/
def analyzeCharsLoop {α : Type} (runOne : ArchCharacteristic → Except String α) :
    List ArchCharacteristic → List α × List String
  | [] => ([], [])
  | c :: rest =>
      if supportedChar c then
        match runOne c with
        | .ok a =>
            let (as1, tr) := analyzeCharsLoop runOne rest
            (a :: as1, c.name :: tr)
        | .error _ =>
            let (as1, tr) := analyzeCharsLoop runOne rest
            (as1, c.name :: tr)
      else
        analyzeCharsLoop runOne rest

/-! Concrete instances used by witnesses and counterexamples. -/

/-- An empty checklist for exercising the approval gate. -/
def checklistW : AgentChecklist :=
  { agent_name := "TestAgent", task_description := "task", items := [] }

/-- A callback that always succeeds, mirroring the default
`execute_checklist_item`. -/
def cbNoop : ChecklistItem → Except String String :=
  fun it => .ok ("Executed: " ++ it.description)

/-- First item of the two-item scenario checklist. -/
def itW1 : ChecklistItem := { id := "1", description := "first" }

/-- Second item of the two-item scenario checklist. -/
def itW2 : ChecklistItem := { id := "2", description := "second" }

/-- Callback raising `ValueError("boom")` on item 1 and succeeding on any
other item. -/
def cbBoom : ChecklistItem → Except String String :=
  fun it =>
    if it.id == "1" then .error "boom"
    else .ok ("Executed: " ++ it.description)

/-- The two-item scenario checklist. -/
def checklist2 : AgentChecklist :=
  { agent_name := "TestAgent", task_description := "task", items := [itW1, itW2] }

/-- An optional first step whose execution fails. -/
def stepA : PipelineStep :=
  { name := "A", agent := "discovery", task := "t", required := false }

/-- A required second step depending on the first. -/
def stepB : PipelineStep :=
  { name := "B", agent := "generator", task := "t", depends_on := ["A"],
    required := true }

/-- The two-step pipeline A (optional) then B (required, depends on A). -/
def pipelineAB : Pipeline := { name := "p", description := "d", steps := [stepA, stepB] }

/-- Step executor failing on A and succeeding elsewhere. -/
def execAB : PipelineStep → List (String × StepResult Nat) → Except String Nat :=
  fun s _ => if s.name == "A" then .error "fail" else .ok 0

/-- A required step with no dependencies. -/
def stepC : PipelineStep := { name := "C", agent := "x", task := "t" }

/-- Step executor that always raises. -/
def execFail : PipelineStep → List (String × StepResult Nat) → Except String Nat :=
  fun _ _ => .error "bad"

/-- A selected Availability characteristic. -/
def charA : ArchCharacteristic :=
  { id := "1", name := "Availability", description := "", selected := true }

/-- A selected Security characteristic. -/
def charS : ArchCharacteristic :=
  { id := "2", name := "Security", description := "", selected := true }

/-- A selected Scalability characteristic. -/
def charSc : ArchCharacteristic :=
  { id := "3", name := "Scalability", description := "", selected := true }

/-- A per-characteristic analysis body that raises on Security and
succeeds elsewhere. -/
def runOneW : ArchCharacteristic → Except String String :=
  fun c =>
    if c.name == "Security" then .error "llm down"
    else .ok ("analysis of " ++ c.name)

/-! Helper lemmas. -/

theorem request_approval_items (c : AgentChecklist) (a : Bool) (p : PromptOutcome) :
    ((request_approval c a p).2.1).items = c.items := by
  cases a with
  | true => rfl
  | false =>
    cases p with
    | interrupted => rfl
    | entered text =>
      simp only [request_approval]
      split
      · rfl
      · split <;> rfl

theorem invokedItems_request_approval (c : AgentChecklist) (a : Bool)
    (p : PromptOutcome) : invokedItems (request_approval c a p).2.2 = [] := by
  unfold request_approval
  cases a <;> cases p <;> rfl

theorem countApprovalRequests_request_approval (c : AgentChecklist) (a : Bool)
    (p : PromptOutcome) : countApprovalRequests (request_approval c a p).2.2 = 0 := by
  unfold request_approval
  cases a <;> cases p <;> rfl

theorem runItems_eq (cb : ChecklistItem → Except String String)
    (l : List ChecklistItem) :
    runItems cb l =
      (l.map fun i => (runItem cb i).1, l.map (fun i => (runItem cb i).2),
       l.map Event.invoked) := by
  induction l with
  | nil => rfl
  | cons i rest ih => simp [runItems, ih]

theorem invokedItems_map_invoked (l : List ChecklistItem) :
    invokedItems (l.map Event.invoked) = l := by
  induction l with
  | nil => rfl
  | cons i rest ih => simp [invokedItems] at ih ⊢; exact ih

theorem invokedItems_append (l1 l2 : List Event) :
    invokedItems (l1 ++ l2) = invokedItems l1 ++ invokedItems l2 := by
  simp [invokedItems]

theorem countApprovalRequests_append (l1 l2 : List Event) :
    countApprovalRequests (l1 ++ l2) =
      countApprovalRequests l1 + countApprovalRequests l2 := by
  simp [countApprovalRequests]

theorem countApprovalRequests_map_invoked (l : List ChecklistItem) :
    countApprovalRequests (l.map Event.invoked) = 0 := by
  induction l with
  | nil => rfl
  | cons i rest ih => simp [countApprovalRequests]

/-! Claim theorems. -/

/-- C5: for every checklist, `request_approval` with `auto_approve=true`
returns `approved=true` with the fixed automation feedback, sets the
checklist's `approved` field to `true` and `approved_by` to the
automatic-approval sentinel, and never prompts for interactive input (the
function is total, so there is no failure mode). -/
theorem C5_auto_approve_always_succeeds (c : AgentChecklist) (p : PromptOutcome) :
    request_approval c true p =
      (⟨true, some "Auto-approved in automation mode"⟩,
       { c with approved := true, approved_by := some "auto-approved" }, []) ∧
    countPrompts (request_approval c true p).2.2 = 0 :=
  ⟨rfl, rfl⟩

/-- C6: interactive approval returns `approved=true` iff the entered text,
stripped and lowercased, is in the affirmative token set; any other input
yields `approved=false` with the cancellation feedback, and an aborted
prompt yields `approved=false` with the distinct interrupted feedback;
cancellation is always expressed via `approved=false` in the returned
(total) `ApprovalResponse`. -/
theorem C6_interactive_approval (c : AgentChecklist) (p : PromptOutcome) :
    (∀ text, p = PromptOutcome.entered text →
      ((request_approval c false p).1.approved = true ↔
        pyLower (pyStrip text) ∈ affirmativeTokens) ∧
      ((request_approval c false p).1.approved = false →
        (request_approval c false p).1.feedback = some "User cancelled") ∧
      ((request_approval c false p).1.approved = true →
        (request_approval c false p).1.feedback = some "User approval")) ∧
    (p = PromptOutcome.interrupted →
      (request_approval c false p).1.approved = false ∧
      (request_approval c false p).1.feedback = some "Interrupted by user") := by
  constructor
  · rintro text rfl
    by_cases h : pyLower (pyStrip text) ∈ affirmativeTokens <;>
      simp [request_approval, h]
  · rintro rfl
    exact ⟨rfl, rfl⟩

/-- Witness for C6 at the concrete inputs `" YES "` and an interrupt. -/
theorem C6_interactive_approval_witness :
    (request_approval checklistW false (PromptOutcome.entered " YES ")).1.approved
      = true ∧
    (request_approval checklistW false PromptOutcome.interrupted).1.feedback =
      some "Interrupted by user" := by
  have h1 :=
    (C6_interactive_approval checklistW (PromptOutcome.entered " YES ")).1 " YES " rfl
  have h2 := (C6_interactive_approval checklistW PromptOutcome.interrupted).2 rfl
  exact ⟨h1.1.mpr (by decide), h2.2⟩

/-- C10: an interrupted approval prompt returns `approved=false` but writes
nothing to the checklist object, whereas an explicit textual answer always
writes the decision into the checklist's `approved` field. -/
theorem C10_interrupt_leaves_checklist_untouched (c : AgentChecklist)
    (p : PromptOutcome) :
    (p = PromptOutcome.interrupted →
      (request_approval c false p).1.approved = false ∧
      (request_approval c false p).2.1 = c) ∧
    (∀ text, p = PromptOutcome.entered text →
      (request_approval c false p).2.1.approved =
        (request_approval c false p).1.approved) := by
  constructor
  · rintro rfl
    exact ⟨rfl, rfl⟩
  · rintro text rfl
    by_cases h : pyLower (pyStrip text) ∈ affirmativeTokens <;>
      simp [request_approval, h]

/-- Witness for C10 at an interrupt and at the concrete answer `"nope"`. -/
theorem C10_interrupt_leaves_checklist_untouched_witness :
    (request_approval checklistW false PromptOutcome.interrupted).2.1 =
      checklistW ∧
    (request_approval checklistW false (PromptOutcome.entered "nope")).2.1.approved =
      (request_approval checklistW false (PromptOutcome.entered "nope")).1.approved := by
  exact
    ⟨((C10_interrupt_leaves_checklist_untouched checklistW
        PromptOutcome.interrupted).1 rfl).2,
     (C10_interrupt_leaves_checklist_untouched checklistW
        (PromptOutcome.entered "nope")).2 "nope" rfl⟩

/-- C2: if the approval gate returns `approved=false`, the executor returns
`{success: false, cancelled: true}` with the checklist and the approval
feedback, the execution callback is never invoked, no results list is
produced, and the checklist's items (hence every `completed` flag) are
unchanged. -/
theorem C2_non_approval_halts (cb : ChecklistItem → Except String String)
    (c : AgentChecklist) (a : Bool) (p : PromptOutcome)
    (hap : (request_approval c a p).1.approved = false) :
    (execute_with_checklist cb c a p).1.success = false ∧
    (execute_with_checklist cb c a p).1.cancelled = true ∧
    (execute_with_checklist cb c a p).1.results = none ∧
    (execute_with_checklist cb c a p).1.feedback =
      (request_approval c a p).1.feedback ∧
    (execute_with_checklist cb c a p).1.checklist.items = c.items ∧
    invokedItems (execute_with_checklist cb c a p).2 = [] := by
  have hitems := request_approval_items c a p
  have hinv := invokedItems_request_approval c a p
  rcases hr : request_approval c a p with ⟨resp, c1, ev⟩
  rw [hr] at hap hitems hinv
  simp only [execute_with_checklist, hr] at *
  simp [invokedItems] at hinv
  simp [hap, hitems, invokedItems]
  exact hinv

/-- Witness for C2 at an interrupted approval of a concrete checklist. -/
theorem C2_non_approval_halts_witness :
    (execute_with_checklist cbNoop checklistW false PromptOutcome.interrupted).1.cancelled
      = true ∧
    invokedItems
      (execute_with_checklist cbNoop checklistW false PromptOutcome.interrupted).2 =
      [] := by
  have h := C2_non_approval_halts cbNoop checklistW false PromptOutcome.interrupted rfl
  exact ⟨h.2.1, h.2.2.2.2.2⟩

theorem invokedItems_cons_approval (ev : List Event) :
    invokedItems (Event.approvalRequested :: ev) = invokedItems ev := rfl

theorem countApprovalRequests_cons_approval (ev : List Event) :
    countApprovalRequests (Event.approvalRequested :: ev) =
      countApprovalRequests ev + 1 := by
  simp [countApprovalRequests, List.filter_cons]

theorem invokedItems_full_trace (ev : List Event) (l : List ChecklistItem)
    (h : invokedItems ev = []) :
    invokedItems (Event.approvalRequested :: (ev ++ l.map Event.invoked)) = l := by
  rw [invokedItems_cons_approval, invokedItems_append, h,
    invokedItems_map_invoked, List.nil_append]

theorem countApprovalRequests_full_trace (ev : List Event)
    (l : List ChecklistItem) (h : countApprovalRequests ev = 0) :
    countApprovalRequests
      (Event.approvalRequested :: (ev ++ l.map Event.invoked)) = 1 := by
  rw [countApprovalRequests_cons_approval, countApprovalRequests_append, h,
    countApprovalRequests_map_invoked]

/-- Evaluation of the executor on the cancelled path. -/
theorem execute_not_approved (cb : ChecklistItem → Except String String)
    (c : AgentChecklist) (a : Bool) (p : PromptOutcome)
    (hap : (request_approval c a p).1.approved = false) :
    execute_with_checklist cb c a p =
      (⟨false, true, (request_approval c a p).2.1, none,
        (request_approval c a p).1.feedback⟩,
       Event.approvalRequested :: (request_approval c a p).2.2) := by
  rcases hr : request_approval c a p with ⟨resp, c1, ev⟩
  rw [hr] at hap
  replace hap : resp.approved = false := hap
  simp [execute_with_checklist, hr, hap]

/-- Evaluation of the executor on the approved path. -/
theorem execute_approved (cb : ChecklistItem → Except String String)
    (c : AgentChecklist) (a : Bool) (p : PromptOutcome)
    (hap : (request_approval c a p).1.approved = true) :
    execute_with_checklist cb c a p =
      (⟨true, false,
        { (request_approval c a p).2.1 with
            items := c.items.map fun i => (runItem cb i).1 },
        some (c.items.map fun i => (runItem cb i).2), none⟩,
       Event.approvalRequested ::
         ((request_approval c a p).2.2 ++ c.items.map Event.invoked)) := by
  have hitems := request_approval_items c a p
  rcases hr : request_approval c a p with ⟨resp, c1, ev⟩
  rw [hr] at hap hitems
  replace hap : resp.approved = true := hap
  replace hitems : c1.items = c.items := hitems
  simp [execute_with_checklist, hr, hap, runItems_eq, hitems]

/-- C1: on an approved checklist where the callback raises on item `k` and
succeeds on every other item, the run is not aborted: item `k`'s result is
`"Error: <message>"` with a `none` placeholder at position `k` of the
results list, every other item is invoked and transitions to
`completed=true` with its returned string as result, and the outcome is
`{success: true, cancelled: false}` with the final checklist. -/
theorem C1_failure_isolation (cb : ChecklistItem → Except String String)
    (c : AgentChecklist) (a : Bool) (p : PromptOutcome) (k : Nat)
    (itk : ChecklistItem) (msg : String)
    (hap : (request_approval c a p).1.approved = true)
    (hk : c.items[k]? = some itk)
    (herr : cb itk = Except.error msg)
    (hok : ∀ j it, c.items[j]? = some it → j ≠ k → (cb it).isOk = true) :
    (execute_with_checklist cb c a p).1.success = true ∧
    (execute_with_checklist cb c a p).1.cancelled = false ∧
    invokedItems (execute_with_checklist cb c a p).2 = c.items ∧
    ∃ rs, (execute_with_checklist cb c a p).1.results = some rs ∧
      rs.length = c.items.length ∧
      rs[k]? = some none ∧
      (execute_with_checklist cb c a p).1.checklist.items[k]? =
        some { itk with result := some ("Error: " ++ msg) } ∧
      ∀ j it, c.items[j]? = some it → j ≠ k →
        ∃ s, cb it = Except.ok s ∧
          (execute_with_checklist cb c a p).1.checklist.items[j]? =
            some { it with completed := true, result := some s } ∧
          rs[j]? = some (some s) := by
  simp only [execute_approved cb c a p hap]
  refine ⟨by trivial, by trivial, ?_, ?_⟩
  · exact invokedItems_full_trace _ _ (invokedItems_request_approval c a p)
  · refine ⟨c.items.map fun i => (runItem cb i).2, rfl, by simp, ?_, ?_, ?_⟩
    · simp only [List.getElem?_map, hk]
      simp [runItem, herr]
    · simp only [List.getElem?_map, hk]
      simp [runItem, herr]
    · intro j it hj hne
      have hisok := hok j it hj hne
      cases hcb : cb it with
      | error e => rw [hcb] at hisok; simp [Except.isOk, Except.toBool] at hisok
      | ok s =>
          refine ⟨s, rfl, ?_, ?_⟩
          · simp only [List.getElem?_map, hj]
            simp [runItem, hcb]
          · simp only [List.getElem?_map, hj]
            simp [runItem, hcb]

/-- Witness for C1: the two-item checklist, auto-approved, with item 1
raising `"boom"`. -/
theorem C1_failure_isolation_witness :
    (execute_with_checklist cbBoom checklist2 true PromptOutcome.interrupted).1.success
      = true ∧
    invokedItems
      (execute_with_checklist cbBoom checklist2 true PromptOutcome.interrupted).2 =
      checklist2.items := by
  have h := C1_failure_isolation cbBoom checklist2 true PromptOutcome.interrupted 0
    itW1 "boom" rfl rfl rfl ?_
  · exact ⟨h.1, h.2.2.1⟩
  · intro j it hj hne
    rcases j with _ | j
    · exact absurd rfl hne
    rcases j with _ | j
    · have h2 : itW2 = it := by simpa [checklist2] using hj
      rw [← h2]
      decide
    · simp [checklist2] at hj

/-- C8: every invocation of the executor makes exactly one approval
request; if approved, the execution callback is invoked exactly once per
checklist item, in the checklist's list order (never consulting the items'
declared `dependencies`), and the returned checklist holds each item's
final state; if cancelled, no item is invoked. -/
theorem C8_execution_order (cb : ChecklistItem → Except String String)
    (c : AgentChecklist) (a : Bool) (p : PromptOutcome) :
    countApprovalRequests (execute_with_checklist cb c a p).2 = 1 ∧
    ((execute_with_checklist cb c a p).1.cancelled = false →
      invokedItems (execute_with_checklist cb c a p).2 = c.items ∧
      ∀ (j : Nat) (it : ChecklistItem), c.items[j]? = some it →
        (execute_with_checklist cb c a p).1.checklist.items[j]? =
          some (runItem cb it).1) ∧
    ((execute_with_checklist cb c a p).1.cancelled = true →
      invokedItems (execute_with_checklist cb c a p).2 = []) := by
  cases hap : (request_approval c a p).1.approved with
  | false =>
      simp only [execute_not_approved cb c a p hap]
      refine ⟨?_, ?_, ?_⟩
      · rw [countApprovalRequests_cons_approval,
          countApprovalRequests_request_approval]
      · intro hfalse
        simp at hfalse
      · intro _
        rw [invokedItems_cons_approval, invokedItems_request_approval]
  | true =>
      simp only [execute_approved cb c a p hap]
      refine ⟨?_, ?_, ?_⟩
      · exact countApprovalRequests_full_trace _ _
          (countApprovalRequests_request_approval c a p)
      · intro _
        constructor
        · exact invokedItems_full_trace _ _ (invokedItems_request_approval c a p)
        · intro j it hj
          simp only [List.getElem?_map, hj]
          rfl
      · intro htrue
        simp at htrue

/-- Witness for C8: the two-item checklist, auto-approved. -/
theorem C8_execution_order_witness :
    countApprovalRequests
      (execute_with_checklist cbBoom checklist2 true PromptOutcome.interrupted).2 = 1 ∧
    invokedItems
      (execute_with_checklist cbBoom checklist2 true PromptOutcome.interrupted).2 =
      checklist2.items := by
  have h := C8_execution_order cbBoom checklist2 true PromptOutcome.interrupted
  exact ⟨h.1, (h.2.1 rfl).1⟩

/-- Counterexample to C7 as stated: in the concrete scenario (two items,
item 1's callback raises `ValueError("boom")`, item 2 succeeds) the code
leaves item 1's `completed` flag `false` — `item.completed = True` is only
reached when the callback returns — contradicting the claimed
`item 1 completed=true`; the other claimed facts do hold. -/
theorem C7_counterexample :
    (execute_with_checklist cbBoom checklist2 true
        PromptOutcome.interrupted).1.checklist.items[0]?.map ChecklistItem.result =
      some (some "Error: boom") ∧
    ¬ ((execute_with_checklist cbBoom checklist2 true
        PromptOutcome.interrupted).1.checklist.items[0]?.map ChecklistItem.completed =
      some true) ∧
    (execute_with_checklist cbBoom checklist2 true
        PromptOutcome.interrupted).1.checklist.items[1]?.map ChecklistItem.completed =
      some true ∧
    (execute_with_checklist cbBoom checklist2 true
        PromptOutcome.interrupted).1.success = true := by
  decide

/-- C7 amended: same scenario, but the failing item 1 ends with
`completed=false` (its result still `"Error: boom"`), item 2 ends with
`completed=true`, and the outcome has `success=true`. -/
theorem C7_amended_scenario3 :
    (execute_with_checklist cbBoom checklist2 true
        PromptOutcome.interrupted).1.checklist.items[0]?.map ChecklistItem.result =
      some (some "Error: boom") ∧
    (execute_with_checklist cbBoom checklist2 true
        PromptOutcome.interrupted).1.checklist.items[0]?.map ChecklistItem.completed =
      some false ∧
    (execute_with_checklist cbBoom checklist2 true
        PromptOutcome.interrupted).1.checklist.items[1]?.map ChecklistItem.completed =
      some true ∧
    (execute_with_checklist cbBoom checklist2 true
        PromptOutcome.interrupted).1.success = true := by
  decide

theorem runSteps_cons {α : Type}
    (exec : PipelineStep → List (String × StepResult α) → Except String α)
    (step : PipelineStep) (rest : List PipelineStep)
    (results : List (String × StepResult α)) :
    runSteps exec (step :: rest) results =
      (if (step.depends_on.filter fun dep => !containsKey results dep) ≠ [] then
        if step.required then
          (.error ("Step " ++ step.name ++ " missing required dependencies"), [])
        else
          runSteps exec rest results
      else
        match exec step results with
        | .ok data =>
            let (out, tr) :=
              runSteps exec rest (setKey results step.name ⟨true, some data, none⟩)
            (out, step.name :: tr)
        | .error e =>
            let results1 := setKey results step.name ⟨false, none, some e⟩
            if step.required then
              (.ok results1, [step.name])
            else
              let (out, tr) := runSteps exec rest results1
              (out, step.name :: tr)) := rfl

/-- Counterexample to C3 as stated: in pipeline `[A (optional), B
(required, depends_on=[A])]` where A executes and fails, B's declared
dependency A did not succeed, yet B is executed (it appears in the
execution trace and is recorded with `success=true`): the broker's
dependency check tests only presence of a result under the dependency's
name, not its success.  (With A's recorded failure the aggregate `success`
is false here, but the claimed "never executed" is violated.) -/
theorem C3_counterexample :
    stepB.required = true ∧
    stepB.depends_on = ["A"] ∧
    (execute_pipeline execAB pipelineAB 0 1).2 = ["A", "B"] ∧
    (execute_pipeline execAB pipelineAB 0 1).1 =
      Except.ok ⟨"p", [("A", ⟨false, none, some "fail"⟩),
                       ("B", ⟨true, some 0, none⟩)], 1, false⟩ := by
  exact ⟨rfl, rfl, rfl, rfl⟩

/-- C3 amended: a required step one of whose declared `depends_on` names
has produced no result in this run is never executed and the run aborts
with a raised error (no aggregate outcome is returned); an optional step
in the same situation is skipped — absent from the per-step results — and
the remaining steps still run.  (A step all of whose dependencies produced
results executes even if a dependency's recorded result was a failure.) -/
theorem C3_amended_dependency_gating {α : Type}
    (exec : PipelineStep → List (String × StepResult α) → Except String α)
    (step : PipelineStep) (rest : List PipelineStep)
    (results : List (String × StepResult α))
    (hmiss : ∃ dep ∈ step.depends_on, containsKey results dep = false) :
    (step.required = true →
      ∃ msg, runSteps exec (step :: rest) results = (Except.error msg, [])) ∧
    (step.required = false →
      runSteps exec (step :: rest) results = runSteps exec rest results) := by
  obtain ⟨dep, hdep, hcon⟩ := hmiss
  have hne : (step.depends_on.filter fun d => !containsKey results d) ≠ [] := by
    have hmem : dep ∈ step.depends_on.filter fun d => !containsKey results d :=
      List.mem_filter.mpr ⟨hdep, by simp [hcon]⟩
    exact List.ne_nil_of_mem hmem
  constructor
  · intro hreq
    rw [runSteps_cons, if_pos hne, if_pos hreq]
    exact ⟨_, rfl⟩
  · intro hreq
    rw [runSteps_cons, if_pos hne, if_neg (by simp [hreq])]

/-- Witness for the amended C3: a required head step with an unmet
dependency aborts the run with an error and an empty execution trace. -/
theorem C3_amended_dependency_gating_witness :
    ∃ msg, runSteps execAB [stepB] [] = (Except.error msg, ([] : List String)) := by
  exact (C3_amended_dependency_gating execAB stepB [] []
    ⟨"A", by decide, by decide⟩).1 rfl

/-- C4: an exception raised while executing a step is captured in that
step's recorded outcome as `{success: false, data: none, error: msg}`
rather than propagating; a required step's failure stops the pipeline with
the partial results accumulated so far, an optional step's failure lets
the next step run; and the final outcome carries the per-step results, the
wall-clock duration, and an aggregate success that is true only if every
recorded step succeeded. -/
theorem C4_step_failure_capture {α : Type}
    (exec : PipelineStep → List (String × StepResult α) → Except String α)
    (step : PipelineStep) (rest : List PipelineStep)
    (results : List (String × StepResult α)) (msg : String)
    (pl : Pipeline) (start_time end_time : Int)
    (hdeps : ∀ dep ∈ step.depends_on, containsKey results dep = true)
    (herr : exec step results = Except.error msg) :
    (step.required = true →
      runSteps exec (step :: rest) results =
        (Except.ok (setKey results step.name ⟨false, none, some msg⟩),
         [step.name])) ∧
    (step.required = false →
      runSteps exec (step :: rest) results =
        ((runSteps exec rest (setKey results step.name ⟨false, none, some msg⟩)).1,
         step.name ::
           (runSteps exec rest (setKey results step.name ⟨false, none, some msg⟩)).2)) ∧
    (∀ res tr, runSteps exec pl.steps [] = (Except.ok res, tr) →
      execute_pipeline exec pl start_time end_time =
        (Except.ok ⟨pl.name, res, end_time - start_time,
          res.all fun r => r.2.success⟩, tr)) := by
  have hfil : (step.depends_on.filter fun dep => !containsKey results dep) = [] := by
    rw [List.filter_eq_nil_iff]
    intro d hd
    simp [hdeps d hd]
  refine ⟨?_, ?_, ?_⟩
  · intro hreq
    rw [runSteps_cons, if_neg (by simp [hfil]), herr]
    simp [hreq]
  · intro hreq
    rw [runSteps_cons, if_neg (by simp [hfil]), herr]
    rcases hrs : runSteps exec rest (setKey results step.name ⟨false, none, some msg⟩)
      with ⟨out, tr⟩
    simp [hreq, hrs]
  · intro res tr h
    simp [execute_pipeline, h]

/-- Witness for C4: a failing required step is recorded as a failure and
ends the run with the partial results. -/
theorem C4_step_failure_capture_witness :
    runSteps execFail [stepC] [] =
      (Except.ok [("C", ⟨false, none, some "bad"⟩)], ["C"]) := by
  have h := C4_step_failure_capture execFail stepC [] [] "bad" pipelineAB 0 1
    (by intro d hd; simp [stepC] at hd) rfl
  exact h.1 rfl

theorem analyzeCharsLoop_append {α : Type}
    (runOne : ArchCharacteristic → Except String α)
    (l1 l2 : List ArchCharacteristic) :
    analyzeCharsLoop runOne (l1 ++ l2) =
      ((analyzeCharsLoop runOne l1).1 ++ (analyzeCharsLoop runOne l2).1,
       (analyzeCharsLoop runOne l1).2 ++ (analyzeCharsLoop runOne l2).2) := by
  induction l1 with
  | nil => simp [analyzeCharsLoop]
  | cons c rest ih =>
      cases h : supportedChar c with
      | true => cases hr : runOne c <;> simp [analyzeCharsLoop, h, hr, ih]
      | false => simp [analyzeCharsLoop, h, ih]

theorem analyzeCharsLoop_all_ok {α : Type}
    (runOne : ArchCharacteristic → Except String α)
    (l : List ArchCharacteristic)
    (h : ∀ c ∈ l, supportedChar c = true → (runOne c).isOk = true) :
    (analyzeCharsLoop runOne l).1.length =
      (l.filter fun c => supportedChar c).length ∧
    (analyzeCharsLoop runOne l).2 =
      (l.filter fun c => supportedChar c).map (fun c => c.name) := by
  induction l with
  | nil => simp [analyzeCharsLoop]
  | cons c rest ih =>
      have hrest := ih fun d hd hs => h d (List.mem_cons_of_mem c hd) hs
      cases hc : supportedChar c with
      | false => simpa [analyzeCharsLoop, hc, List.filter_cons] using hrest
      | true =>
          have hisok := h c (List.mem_cons_self c rest) hc
          cases hr : runOne c with
          | error e => rw [hr] at hisok; simp [Except.isOk, Except.toBool] at hisok
          | ok a =>
              simp [analyzeCharsLoop, hc, hr, List.filter_cons, hrest.1, hrest.2]

/-- C9: during the per-characteristic analysis loop, if analyzing one
supported selected characteristic raises an exception, that characteristic
is skipped while every other selected supported characteristic (before and
after it) is still processed — the loop's trace is exactly the supported
characteristics' names in order — no exception propagates (the loop is a
total function), and the final aggregate contains one fewer analysis than
the number of supported selected characteristics, hence strictly fewer
entries than were requested. -/
theorem C9_characteristic_isolation {α : Type}
    (runOne : ArchCharacteristic → Except String α)
    (pre post : List ArchCharacteristic) (ck : ArchCharacteristic) (msg : String)
    (hsup : supportedChar ck = true)
    (herr : runOne ck = Except.error msg)
    (hok : ∀ c ∈ pre ++ post, supportedChar c = true → (runOne c).isOk = true) :
    (analyzeCharsLoop runOne (pre ++ ck :: post)).2 =
      ((pre ++ ck :: post).filter fun c => supportedChar c).map (fun c => c.name) ∧
    (analyzeCharsLoop runOne (pre ++ ck :: post)).1.length + 1 =
      ((pre ++ ck :: post).filter fun c => supportedChar c).length ∧
    (analyzeCharsLoop runOne (pre ++ ck :: post)).1.length <
      (pre ++ ck :: post).length := by
  have hpre := analyzeCharsLoop_all_ok runOne pre
    fun c hc => hok c (List.mem_append_left _ hc)
  have hpost := analyzeCharsLoop_all_ok runOne post
    fun c hc => hok c (List.mem_append_right _ hc)
  have happ := analyzeCharsLoop_append runOne pre (ck :: post)
  have hmid : analyzeCharsLoop runOne (ck :: post) =
      ((analyzeCharsLoop runOne post).1,
       ck.name :: (analyzeCharsLoop runOne post).2) := by
    simp [analyzeCharsLoop, hsup, herr]
  have hfilter : ((pre ++ ck :: post).filter fun c => supportedChar c) =
      (pre.filter fun c => supportedChar c) ++
        ck :: (post.filter fun c => supportedChar c) := by
    simp [List.filter_append, List.filter_cons, hsup]
  refine ⟨?_, ?_, ?_⟩
  · rw [happ, hmid, hfilter]
    simp [hpre.2, hpost.2]
  · rw [happ, hmid, hfilter]
    simp only [List.length_append, List.length_cons, List.length_map]
    rw [hpre.1] at *
    simp [hpost.1]
    omega
  · have hle1 := List.length_filter_le (fun c => supportedChar c) pre
    have hle2 := List.length_filter_le (fun c => supportedChar c) post
    rw [happ, hmid]
    simp only [List.length_append, List.length_cons]
    rw [hpre.1, hpost.1]
    omega

/-- Witness for C9: of three selected characteristics with Security
failing, all three are attempted in order and two analyses remain. -/
theorem C9_characteristic_isolation_witness :
    (analyzeCharsLoop runOneW ([charA] ++ charS :: [charSc])).2 =
      ["Availability", "Security", "Scalability"] ∧
    (analyzeCharsLoop runOneW ([charA] ++ charS :: [charSc])).1.length < 3 := by
  have h := C9_characteristic_isolation runOneW [charA] [charSc] charS "llm down"
    (by decide) rfl ?_
  · exact ⟨by rw [h.1]; decide, h.2.2⟩
  · intro c hc hs
    simp only [List.mem_append, List.mem_singleton] at hc
    rcases hc with rfl | rfl
    · decide
    · decide

end SAAT
